import Mathlib

/-!
Verification development for the background task broker of the
AI-Agent-LLM-Web-Search repository.

The definitions below are a shallow embedding of `src/taskmanager.ts`,
`src/server.ts` (the `handleTaskStream` handler) and the tool dispatch layer
(`executeTool` / `executePythonCode`).  External collaborators — the Ollama
engine, the web-search provider, the Python interpreter, and the SQLite
persistence layer — are modelled as environment parameters, exactly at the
boundaries the code calls them.  Real-time features (the 30-second keep-alive
interval and the `Date.now()` timestamps) carry no claim-relevant data and are
omitted; everything else follows the source line by line.
-/

/-! ### Data model (`taskmanager.ts`, types) -/

/-- `status` field of a `GenerationTask`: `"running" | "completed" | "error"`. -/
inductive Status where
  | running
  | completed
  | error
deriving DecidableEq

/-- `TaskChunk`: one stored fragment.  In the source the `index` assigned to a
stored chunk is always the chunk-array length at push time, hence a `Nat`. -/
structure TaskChunk where
  content : String
  index : Nat
deriving DecidableEq

/-- One SSE event enqueued to a subscriber.  `chunk` events carry the index as
a JS number; the transient tool notice is sent with index `-1`, so the event
index is an `Int`. -/
inductive Event where
  | chunk (content : String) (index : Int)
  | done
  | errorEv (msg : String)
deriving DecidableEq

/-- A live subscriber: a `ReadableStreamDefaultController` held in the task's
subscriber set.  `canceled` records that the consumer cancelled its stream, in
which case `controller.enqueue` throws. -/
structure Subscriber where
  id : Nat
  canceled : Bool
deriving DecidableEq

/-- One entry of `message.tool_calls`: `tool.function.name` and
`tool.function.arguments`. -/
structure ToolCall where
  name : String
  args : String
deriving DecidableEq

/-- An entry of the `messages` history array sent to the engine. -/
structure ChatMessage where
  role : String
  content : String
  tool_calls : List ToolCall := []
deriving DecidableEq

/-- What one `fetch(OLLAMA_BASE/api/chat)` yields, at the engine boundary:
a non-ok HTTP response with its status and body text, a parsed non-streaming
JSON body (its `message.content` and `message.tool_calls`), or an NDJSON
stream of `message.content` tokens, one per line. -/
inductive EngineResp where
  | fail (status : Nat) (body : String)
  | msg (content : String) (tool_calls : List ToolCall)
  | ndjson (tokens : List String)
deriving DecidableEq

/-- A JS number restricted to what reaches `subscribe`'s `fromChunkIndex`
through `parseInt`: an integer or `NaN`. -/
inductive JsNum where
  | num (v : Int)
  | nan
deriving DecidableEq

/-- Ghost record of one external call made by the control loop: an engine
request (with its `stream` flag) or a Tool Gateway invocation. -/
inductive ExtCall where
  | engine (stream : Bool)
  | tool (name : String) (args : String)
deriving DecidableEq

/-- `GenerationTask` minus the real-time timestamp fields. -/
structure GenerationTask where
  id : String
  conversationId : String
  status : Status
  chunks : List TaskChunk
  fullResponse : String
  error : Option String
  subscribers : List Subscriber
deriving DecidableEq

/-! ### Tool Gateway (`python_executor.ts` and the tool dispatcher) -/

/-- Outcome of one `spawn(["python", tempFile])` run at the process boundary:
the process finished with the given stdout/stderr, the 10-second timeout fired
first, or some step of the try block threw (spawn failure, write failure). -/
inductive PyOutcome where
  | finished (stdout : String) (stderr : String)
  | timedOut
  | sysError (msg : String)
deriving DecidableEq

/-- `executePythonCode`: races the execution promise against the timeout and
wraps every failure into a result string via its catch-all.  The function
never throws. -/
def executePythonCode (o : PyOutcome) : String :=
  match o with
  | .finished out err =>
      if err.trim ≠ "" then "❌ Error:\n" ++ err.trim
      else if out.trim = "" then "✅ Code executed successfully (no output)"
      else out.trim
  | .timedOut => "❌ System Error: ⏱️ Execution timed out (max 10s)"
  | .sysError m => "❌ System Error: " ++ m

/-- Environment for the Tool Gateway: `searchImpl` is the composite
`searchWeb` + `formatResultsAsContext` (which may throw, e.g. on a fetch
failure), `pyOutcome` is the Python process boundary used by
`executePythonCode`. -/
structure ToolEnv where
  searchImpl : String → Except String String
  pyOutcome : String → PyOutcome

/-- `executeTool(toolName, args)`: dispatch inside a try block whose catch
returns the error as text.  An unrecognised name falls through to the
`Error: Unknown tool` return. -/
def executeTool (env : ToolEnv) (toolName : String) (args : String) :
    Except String String :=
  let body : Except String String :=
    if toolName = "web_search" then
      env.searchImpl args
    else if toolName = "execute_python" then
      .ok (executePythonCode (env.pyOutcome args))
    else
      .ok ("Error: Unknown tool \x27" ++ toolName ++ "\x27")
  match body with
  | .ok r => .ok r
  | .error e => .ok ("Error executing " ++ toolName ++ ": " ++ e)

/-- `availableTools`, projected to the `function.name` fields the control loop
matches on. -/
def availableToolNames : List String := ["web_search", "execute_python"]

/-- The per-request tool flags (`useSearch`, `useCode`). -/
structure Flags where
  useSearch : Bool
  useCode : Bool
deriving DecidableEq

/-- The `activeTools` filter in `processTask`: each enabled toggle looks its
tool up in `availableTools`. -/
def activeTools (f : Flags) : List String :=
  (if f.useSearch then (availableToolNames.find? (fun n => n = "web_search")).toList
   else []) ++
  (if f.useCode then (availableToolNames.find? (fun n => n = "execute_python")).toList
   else [])

/-- `hasTools = activeTools.length > 0`. -/
def hasToolsB (f : Flags) : Bool := !(activeTools f).isEmpty

example : executeTool ⟨fun _ => .ok "ctx", fun _ => .timedOut⟩ "bogus" "a"
    = .ok "Error: Unknown tool \x27bogus\x27" := rfl
example : hasToolsB ⟨true, false⟩ = true := rfl
example : hasToolsB ⟨false, false⟩ = false := rfl

/-! ### Run state and Stream Broker primitives (`taskmanager.ts`) -/

/-- The whole observable state of one `processTask` run: the task itself, the
mutable `messages` history, and ghost observation logs.  `delivered` records
every `(subscriber id, event)` pair successfully enqueued, in order;
`dbWrites` the `db.addMessage` calls; `calls` the external calls made;
`cleanupScheduled` whether the 5-minute `setTimeout` removal was scheduled;
`termAssignments` every assignment of a terminal status, in order;
`firstTermChunks` the chunk count at the first terminal assignment. -/
structure RunState where
  task : GenerationTask
  messages : List ChatMessage
  delivered : List (Nat × Event)
  dbWrites : List (String × String × String)
  cleanupScheduled : Bool
  calls : List ExtCall
  termAssignments : List Status
  firstTermChunks : Option Nat
deriving DecidableEq

/-- `notifySubscribers`: encode the event once, then enqueue it to every
controller in the set; a controller whose `enqueue` throws (it was cancelled
by its consumer) is deleted from the set.  Iterating the set and dropping the
throwing controllers is the same as filtering to the non-cancelled ones. -/
def notifySubscribers (s : RunState) (ev : Event) : RunState :=
  { s with
    task := { s.task with
      subscribers := s.task.subscribers.filter (fun c => !c.canceled) }
    delivered := s.delivered ++
      (s.task.subscribers.filter (fun c => !c.canceled)).map (fun c => (c.id, ev)) }

/-- `closeSubscribers`: close every controller (a throw from an already
cancelled one is swallowed) and clear the set. -/
def closeSubscribers (s : RunState) : RunState :=
  { s with task := { s.task with subscribers := [] } }

/-- Append one fragment: build the chunk with `index = task.chunks.length`
(the running `chunkIndex` of `streamFromOllama` always equals the array length
at push time), push it, and broadcast it.  Used by both the per-token
streaming path and the single-chunk non-streaming path. -/
def pushChunk (s : RunState) (content : String) : RunState :=
  let chunk : TaskChunk := { content := content, index := s.task.chunks.length }
  let s := { s with task := { s.task with chunks := s.task.chunks ++ [chunk] } }
  notifySubscribers s (.chunk content (chunk.index : Int))

/-- Assign `task.status`.  The two ghost fields record terminal assignments
so that one-shot transition claims can be stated about a whole run. -/
def setStatus (s : RunState) (st : Status) : RunState :=
  let s := { s with task := { s.task with status := st } }
  if st = .running then s
  else
    { s with
      termAssignments := s.termAssignments ++ [st]
      firstTermChunks :=
        match s.firstTermChunks with
        | none => some s.task.chunks.length
        | some n => some n }

/-- JS `Set.prototype.delete`: remove the elements equal to the given value.
The `cancel` handler of `subscribe` passes `undefined`, which is distinct from
every controller; we model the argument as an `Option Subscriber` whose `none`
is `undefined`, while all stored elements are `some` controller. -/
def setDelete (subs : List Subscriber) (v : Option Subscriber) : List Subscriber :=
  subs.filter (fun c => some c ≠ v)

/-- The `cancel()` handler installed by `subscribe`: it executes
`task.subscribers.delete(undefined as any)`. -/
def cancelHandler (t : GenerationTask) : GenerationTask :=
  { t with subscribers := setDelete t.subscribers none }

/-! ### Subscription and replay (`subscribe`, `handleTaskStream`) -/

/-- JS `>=` with the left operand a chunk index and the right operand the
subscriber's `fromChunkIndex`: any comparison with `NaN` is false. -/
def jsGe (n : Nat) (k : JsNum) : Bool :=
  match k with
  | .num v => decide (v ≤ (n : Int))
  | .nan => false

/-- The replay performed at the top of `subscribe`'s `start` callback:
`task.chunks.filter((c) => c.index >= fromChunkIndex)`, each sent as a
`chunk` event. -/
def replayEvents (t : GenerationTask) (fromChunkIndex : JsNum) : List Event :=
  (t.chunks.filter (fun c => jsGe c.index fromChunkIndex)).map
    (fun c => .chunk c.content (c.index : Int))

/-- `subscribe`'s `start` callback on an existing task: replay, then either a
terminal event plus `controller.close()` (task already terminal — the
subscriber is not registered) or registration in the live subscriber set.
Returns the updated task, the events enqueued before control returns, and
whether the controller was registered. -/
def subscribeStart (t : GenerationTask) (fromChunkIndex : JsNum) (sid : Nat) :
    GenerationTask × List Event × Bool :=
  let replay := replayEvents t fromChunkIndex
  match t.status with
  | .completed => (t, replay ++ [.done], false)
  | .error => (t, replay ++ [.errorEv (t.error.getD "")], false)
  | .running =>
      ({ t with subscribers := t.subscribers ++ [{ id := sid, canceled := false }] },
       replay, true)

/-- One JS digit, as understood by `parseInt` (case-insensitive up to the
radix). -/
def jsDigitVal (c : Char) : Option Nat :=
  let n := c.toNat
  if 48 ≤ n ∧ n ≤ 57 then some (n - 48)
  else if 97 ≤ n ∧ n ≤ 102 then some (n - 97 + 10)
  else if 65 ≤ n ∧ n ≤ 70 then some (n - 65 + 10)
  else none

/-- The longest digit prefix valid in the given radix. -/
def takeDigits (radix : Nat) : List Char → List Nat
  | [] => []
  | c :: rest =>
      match jsDigitVal c with
      | some v => if v < radix then v :: takeDigits radix rest else []
      | none => []

/-- JS `parseInt(string)` with no radix argument: skip whitespace, read an
optional sign, switch to base 16 after a `0x`/`0X` prefix, read the longest
digit prefix, and produce `NaN` when that prefix is empty. -/
def parseIntJS (s : String) : JsNum :=
  let cs := s.data.dropWhile (fun c => c = ' ' ∨ c = '\t' ∨ c = '\n' ∨ c = '\r')
  let signAndRest : Int × List Char :=
    match cs with
    | '-' :: rest => (-1, rest)
    | '+' :: rest => (1, rest)
    | _ => (1, cs)
  let radixAndRest : Nat × List Char :=
    match signAndRest.2 with
    | '0' :: 'x' :: rest => (16, rest)
    | '0' :: 'X' :: rest => (16, rest)
    | _ => (10, signAndRest.2)
  let ds := takeDigits radixAndRest.1 radixAndRest.2
  if ds.isEmpty then .nan
  else .num (signAndRest.1 * ((ds.foldl (fun a d => a * radixAndRest.1 + d) 0 : Nat) : Int))

/-- `handleTaskStream`'s query parsing: `parseInt(url.searchParams.get("from")
|| "0")`.  An absent parameter is `null` and the empty string is falsy, so
both fall back to `"0"`. -/
def parsedFromParam (fromParam : Option String) : JsNum :=
  parseIntJS (match fromParam with
    | none => "0"
    | some s => if s = "" then "0" else s)

/-- The `handleTaskStream` route on a task that exists: subscribe with the
parsed `from` value. -/
def handleTaskStream (t : GenerationTask) (fromParam : Option String) (sid : Nat) :
    GenerationTask × List Event × Bool :=
  subscribeStart t (parsedFromParam fromParam) sid

example : parseIntJS "abc" = .nan := by decide
example : parseIntJS "12" = .num 12 := by decide
example : parseIntJS "  -7rest" = .num (-7) := by decide
example : parseIntJS "" = .nan := by decide
example : parsedFromParam none = .num 0 := by decide

/-! ### Task Runner control loop (`processTask`, `streamFromOllama`) -/

/-- Run environment: the sequence of engine responses consumed by successive
`fetch` calls, the Tool Gateway boundary, and whether `db.addMessage` throws
(`some msg`) or succeeds (`none`). -/
structure Env where
  resps : List EngineResp
  tools : ToolEnv
  dbFail : Option String

/-- The token sequence `streamFromOllama` extracts from a response body, one
`json.message?.content` per NDJSON line, keeping only truthy tokens
(`if (token)` drops empty strings).  A non-streamed JSON body read as a
stream is one line whose token is its `message.content`. -/
def streamTokens : EngineResp → List String
  | .ndjson toks => toks.filter (fun t => t ≠ "")
  | .msg c _ => if c = "" then [] else [c]
  | .fail _ _ => []

/-- `response.json().message` on the non-streaming path: an NDJSON body only
parses when it is a single line, in which case it is one message with no
`tool_calls`; otherwise `json()` throws. -/
def nonStreamMessage : EngineResp → Except String (String × List ToolCall)
  | .msg c tcs => .ok (c, tcs)
  | .ndjson toks =>
      match toks with
      | [t] => .ok (t, [])
      | _ => .error "Unexpected token in JSON"
  | .fail _ _ => .ok ("", [])

/-- The human-readable notice pushed to observers before each tool runs. -/
def noticeText (funcName : String) : String :=
  "\n\n*> 🛠️ Executing " ++ funcName ++ "...*\n\n"

/-- `JSON.stringify` applied to a tool's result text before it is pushed into
the history with role `"tool"` (escaping of special characters elided — no
observation in this development reads the history back). -/
def quoteJson (r : String) : String := "\"" ++ r ++ "\""

/-- The `for (const tool of message.tool_calls)` body: per requested tool,
broadcast the transient notice with index `-1`, invoke the Tool Gateway, and
append the result to the history.  A rejection from `executeTool` would
propagate out of `processTask` (the `.error` branch). -/
def runTools (env : Env) : List ToolCall → RunState → Except (String × RunState) RunState
  | [], s => .ok s
  | tc :: rest, s =>
      let s := notifySubscribers s (.chunk (noticeText tc.name) (-1))
      let s := { s with calls := s.calls ++ [.tool tc.name tc.args] }
      match executeTool env.tools tc.name tc.args with
      | .ok result =>
          runTools env rest
            { s with messages := s.messages ++ [{ role := "tool", content := quoteJson result }] }
      | .error e => .error (e, s)

/-- The `while (iteration < MAX_ITERATIONS)` loop of `processTask`.  `fuel` is
the number of remaining permitted iterations (initially `MAX_ITERATIONS = 5`)
and `iteration` the already-incremented counter of the current pass (initially
`1`).  A `.error` result is an exception propagating out of the loop; `.ok`
is a normal exit (a `break`, or the ceiling being reached). -/
def loopGo (env : Env) (f : Flags) : Nat → Nat → List EngineResp → RunState →
    Except (String × RunState) RunState
  | 0, _, _, s => .ok s
  | fuel + 1, iteration, resps, s =>
      let shouldStream : Bool := !hasToolsB f || decide (iteration > 1)
      let s := { s with calls := s.calls ++ [.engine shouldStream] }
      match resps with
      | [] => .error ("fetch failed", s)
      | resp :: rest =>
          match resp with
          | .fail status body =>
              .error ("Ollama error (" ++ toString status ++ "): " ++ body, s)
          | r =>
              if shouldStream then
                let toks := streamTokens r
                let s := toks.foldl pushChunk s
                let s := { s with task := { s.task with
                  fullResponse := s.task.fullResponse ++ toks.foldl (fun a t => a ++ t) "" } }
                .ok s
              else
                match nonStreamMessage r with
                | .error e => .error (e, s)
                | .ok (content, tcs) =>
                    if tcs.isEmpty then
                      let s := { s with task := { s.task with
                        fullResponse := s.task.fullResponse ++ content } }
                      .ok (pushChunk s content)
                    else
                      let s := { s with messages := s.messages ++
                        [{ role := "assistant", content := content, tool_calls := tcs }] }
                      match runTools env tcs s with
                      | .ok s => loopGo env f fuel (iteration + 1) rest s
                      | .error e => .error e

/-- The `.catch` installed by `startTask` on the `processTask` promise: mark
the task `error`, record the message, broadcast one error event, close all
subscribers.  It does not schedule the deferred registry removal. -/
def startTaskCatch (m : String) (s : RunState) : RunState :=
  let s := setStatus s .error
  let s := { s with task := { s.task with error := some m } }
  let s := notifySubscribers s (.errorEv m)
  closeSubscribers s

/-- The code after the `while` loop of `processTask` ("Task completed"): mark
`completed`, write the response through the Persistence Sink when non-empty
(`db.addMessage` may itself throw, after the `completed` transition),
broadcast `done`, close subscribers, and schedule the 5-minute registry
removal.  A throw from the persistence write escapes to `startTask`'s
catch. -/
def completeTask (env : Env) (s : RunState) : RunState :=
  let s := setStatus s .completed
  let persisted : Except (String × RunState) RunState :=
    if s.task.fullResponse ≠ "" then
      match env.dbFail with
      | some m => .error (m, s)
      | none => .ok { s with dbWrites := s.dbWrites ++
          [(s.task.conversationId, "assistant", s.task.fullResponse)] }
    else .ok s
  match persisted with
  | .ok s =>
      let s := notifySubscribers s .done
      let s := closeSubscribers s
      { s with cleanupScheduled := true }
  | .error (m, s) => startTaskCatch m s

/-- `processTask` followed by `startTask`'s failure callback: run the loop;
on normal exit run the completion code; any exception along the way lands in
the catch. -/
def processTask (env : Env) (f : Flags) (s0 : RunState) : RunState :=
  match loopGo env f 5 1 env.resps s0 with
  | .ok s => completeTask env s
  | .error (m, s) => startTaskCatch m s

/-- The state right after `startTask` built the task and before `processTask`
runs, generalised over the subscribers already attached (a subscriber can
attach any time after `startTask` returns the id, including before the first
engine response). -/
def initialRunState (id conversationId : String) (msgs : List ChatMessage)
    (subs : List Subscriber) : RunState :=
  { task := { id := id, conversationId := conversationId, status := .running,
              chunks := [], fullResponse := "", error := none, subscribers := subs }
    messages := msgs, delivered := [], dbWrites := [], cleanupScheduled := false,
    calls := [], termAssignments := [], firstTermChunks := none }

/-! ### Observation helpers used by the theorems -/

/-- Index-ordered concatenation of the stored fragment texts. -/
def chunksConcat : List TaskChunk → String
  | [] => ""
  | c :: rest => c.content ++ chunksConcat rest

/-- Plain concatenation of a token list. -/
def strJoin : List String → String
  | [] => ""
  | t :: ts => t ++ strJoin ts

/-- The chunk records `streamFromOllama` builds from a token list when the
chunk array already holds `off` entries. -/
def mkChunks : Nat → List String → List TaskChunk
  | _, [] => []
  | off, t :: ts => { content := t, index := off } :: mkChunks (off + 1) ts

/-- The fragment indices are exactly `off, off+1, ...` in storage order. -/
def wellIndexedFrom : Nat → List TaskChunk → Bool
  | _, [] => true
  | off, c :: rest => c.index == off && wellIndexedFrom (off + 1) rest

/-- Is this event a terminal signal? -/
def isTerm : Event → Bool
  | .done => true
  | .errorEv _ => true
  | .chunk _ _ => false

/-- How many terminal events were delivered to subscriber `sid`. -/
def termCount (sid : Nat) (l : List (Nat × Event)) : Nat :=
  (l.filter (fun p => p.1 == sid && isTerm p.2)).length

/-- How many live (non-cancelled) controllers with id `sid` the task holds. -/
def cntSubs (sid : Nat) (t : GenerationTask) : Nat :=
  (t.subscribers.filter (fun c => c.id == sid && !c.canceled)).length

example :
    (processTask ⟨[.ndjson ["Hel", "lo"]], ⟨fun _ => .ok "", fun _ => .timedOut⟩, none⟩
      ⟨false, false⟩ (initialRunState "t" "c" [] [⟨0, false⟩])).task.fullResponse
    = "Hello" := by decide

example :
    (processTask ⟨[.ndjson ["Hel", "lo"]], ⟨fun _ => .ok "", fun _ => .timedOut⟩, none⟩
      ⟨false, false⟩ (initialRunState "t" "c" [] [⟨0, false⟩])).delivered
    = [(0, .chunk "Hel" 0), (0, .chunk "lo" 1), (0, .done)] := by decide

/-- The data-model invariant of §3 of the specification, stated on a task:
`fullResponse` is the index-ordered concatenation of the stored fragment
texts, and the fragment indices are contiguous from 0. -/
def TaskInv (t : GenerationTask) : Prop :=
  t.fullResponse = chunksConcat t.chunks ∧ wellIndexedFrom 0 t.chunks = true

/-- Frame facts preserved by every step of the control loop (before the
terminal phase): the status, error, persistence, cleanup and terminal ghost
fields are untouched; the count of live controllers per subscriber id is
unchanged; and everything newly delivered is a non-terminal event. -/
def StepFrame (s s' : RunState) : Prop :=
  s'.task.status = s.task.status ∧
  s'.task.error = s.task.error ∧
  s'.task.id = s.task.id ∧
  s'.task.conversationId = s.task.conversationId ∧
  s'.cleanupScheduled = s.cleanupScheduled ∧
  s'.dbWrites = s.dbWrites ∧
  s'.termAssignments = s.termAssignments ∧
  s'.firstTermChunks = s.firstTermChunks ∧
  (∀ sid, cntSubs sid s'.task = cntSubs sid s.task) ∧
  (∃ l, s'.delivered = s.delivered ++ l ∧ ∀ p ∈ l, isTerm p.2 = false)

/-- The state carried by either side of an `Except`-valued loop result. -/
def resultState : Except (String × RunState) RunState → RunState
  | .ok s => s
  | .error (_, s) => s

/-! ### Basic lemmas -/

theorem strAppend_assoc (a b c : String) : a ++ b ++ c = a ++ (b ++ c) := by
  apply String.ext
  simp [List.append_assoc]

theorem chunksConcat_append (l m : List TaskChunk) :
    chunksConcat (l ++ m) = chunksConcat l ++ chunksConcat m := by
  induction l with
  | nil => simp [chunksConcat]
  | cons c rest ih => simp [chunksConcat, ih, strAppend_assoc]

theorem strJoin_of_foldl (toks : List String) (a : String) :
    toks.foldl (fun x t => x ++ t) a = a ++ strJoin toks := by
  induction toks generalizing a with
  | nil => simp [strJoin]
  | cons t ts ih => simp [List.foldl_cons, strJoin, ih, strAppend_assoc]

theorem chunksConcat_mkChunks (off : Nat) (toks : List String) :
    chunksConcat (mkChunks off toks) = strJoin toks := by
  induction toks generalizing off with
  | nil => rfl
  | cons t ts ih => simp [mkChunks, chunksConcat, strJoin, ih]

theorem wellIndexedFrom_append (off : Nat) (l m : List TaskChunk)
    (hl : wellIndexedFrom off l = true)
    (hm : wellIndexedFrom (off + l.length) m = true) :
    wellIndexedFrom off (l ++ m) = true := by
  induction l generalizing off with
  | nil => simpa using hm
  | cons c rest ih =>
      simp only [wellIndexedFrom, Bool.and_eq_true] at hl ⊢
      refine ⟨hl.1, ih (off + 1) hl.2 ?_⟩
      have : off + 1 + rest.length = off + (rest.length + 1) := by omega
      simpa [this] using hm

theorem mkChunks_wellIndexed (off : Nat) (toks : List String) :
    wellIndexedFrom off (mkChunks off toks) = true := by
  induction toks generalizing off with
  | nil => rfl
  | cons t ts ih => simp [mkChunks, wellIndexedFrom, ih]

theorem wellIndexedFrom_map_index (off : Nat) (l : List TaskChunk)
    (h : wellIndexedFrom off l = true) :
    l.map (fun c => c.index) = List.range' off l.length := by
  induction l generalizing off with
  | nil => rfl
  | cons c rest ih =>
      simp only [wellIndexedFrom, Bool.and_eq_true, beq_iff_eq] at h
      simp [List.range', h.1, ih (off + 1) h.2]

theorem wellIndexedFrom_drop (off k : Nat) (l : List TaskChunk)
    (h : wellIndexedFrom off l = true) :
    wellIndexedFrom (off + k) (l.drop k) = true := by
  induction k generalizing off l with
  | zero => simpa using h
  | succ k ih =>
      match l with
      | [] => rfl
      | c :: rest =>
          simp only [wellIndexedFrom, Bool.and_eq_true] at h
          have := ih (off + 1) rest h.2
          simpa [List.drop_succ_cons, Nat.add_assoc, Nat.add_comm 1 k] using this

/-- Core replay lemma: on a contiguously indexed chunk list starting at `off`,
the `c.index >= k` filter keeps exactly the suffix from position `k - off`. -/
theorem replay_filter_eq_drop (k : Nat) (off : Nat) (l : List TaskChunk)
    (h : wellIndexedFrom off l = true) :
    l.filter (fun c => jsGe c.index (.num (k : Int))) = l.drop (k - off) := by
  induction l generalizing off with
  | nil => simp
  | cons c rest ih =>
      simp only [wellIndexedFrom, Bool.and_eq_true, beq_iff_eq] at h
      by_cases hk : k ≤ off
      · have hge : jsGe c.index (.num (k : Int)) = true := by
          simp [jsGe, h.1]; omega
        have h0 : k - off = 0 := by omega
        have h1 : k - (off + 1) = 0 := by omega
        simp only [List.filter_cons, hge, if_pos, ih (off + 1) h.2, h0, h1,
          List.drop_zero, if_true]
      · have hlt : jsGe c.index (.num (k : Int)) = false := by
          simp [jsGe, h.1]; omega
        have h1 : k - off = (k - (off + 1)) + 1 := by omega
        simp only [List.filter_cons, hlt, ih (off + 1) h.2, h1, if_false,
          Bool.false_eq_true, List.drop_succ_cons]

/-! ### Claim C7 — Tool Gateway exception boundary -/

/-- C7 counterexample: the claim asserts that an unknown tool name at the
dispatch layer raises past the `executeTool` boundary.  It does not: at the
concrete input `toolName = "make_coffee"` the dispatcher returns normally
with the failure encoded in the result text. -/
theorem unknown_tool_returns_text :
    executeTool ⟨fun _ => .ok "ctx", fun _ => .timedOut⟩ "make_coffee" "a"
      = .ok "Error: Unknown tool \x27make_coffee\x27" := rfl

/-- C7 (amended): `executeTool` never propagates a raised exception for any
input — operational failures and unknown tool names alike are returned
encoded in the result text. -/
theorem executeTool_never_raises (env : ToolEnv) (toolName args : String) :
    ∃ text, executeTool env toolName args = .ok text := by
  unfold executeTool
  by_cases h1 : toolName = "web_search"
  · simp only [h1, if_pos rfl]
    match env.searchImpl args with
    | .ok r => exact ⟨r, rfl⟩
    | .error e => exact ⟨_, rfl⟩
  · by_cases h2 : toolName = "execute_python"
    · simp [h1, h2]
    · simp [h1, h2]

/-! ### Claim C8 — client disconnect (cancel handler) -/

/-- C8: the `cancel()` handler runs `task.subscribers.delete(undefined)`,
which removes nothing — in particular the disconnecting subscriber's own
controller stays in the set (it is only dropped later, when an enqueue to the
cancelled controller throws inside `notifySubscribers`).  The rest of the
task is untouched, so the task's status, fragments and outcome are indeed
unaffected — but the sink removal the claim (and the code's own comment)
promises does not happen. -/
theorem cancel_does_not_remove_sink (t : GenerationTask) :
    cancelHandler t = t := by
  unfold cancelHandler setDelete
  have : t.subscribers.filter (fun c => decide (some c ≠ none)) = t.subscribers := by
    apply List.filter_eq_self.mpr
    intro c _
    simp
  simp [this]

/-! ### Claim C2 — replay from index k -/

/-- C2: subscribing with `fromIndex = k` to a task whose stored fragments are
contiguously indexed `0..n-1` replays exactly the fragments `k..n-1`, in index
order, without duplicates or gaps: the replayed events are the chunk events of
`t.chunks.drop k`, whose indices are exactly `k, k+1, ..., n-1`. -/
theorem subscribe_replay_exact (t : GenerationTask) (k : Nat)
    (h : wellIndexedFrom 0 t.chunks = true) :
    replayEvents t (.num (k : Int))
        = (t.chunks.drop k).map (fun c => .chunk c.content (c.index : Int)) ∧
      (t.chunks.drop k).map (fun c => c.index)
        = List.range' k (t.chunks.length - k) := by
  constructor
  · unfold replayEvents
    rw [replay_filter_eq_drop k 0 t.chunks h]
    simp
  · have hd := wellIndexedFrom_drop 0 k t.chunks h
    have := wellIndexedFrom_map_index (0 + k) (t.chunks.drop k) hd
    simpa [List.length_drop] using this

/-- C2 witness at a concrete task: three stored fragments, `k = 1`. -/
theorem subscribe_replay_exact_witness :
    wellIndexedFrom 0 (⟨"t", "c", .running, [⟨"a", 0⟩, ⟨"b", 1⟩, ⟨"c", 2⟩],
        "abc", none, []⟩ : GenerationTask).chunks = true ∧
      (replayEvents (⟨"t", "c", .running, [⟨"a", 0⟩, ⟨"b", 1⟩, ⟨"c", 2⟩],
            "abc", none, []⟩ : GenerationTask) (.num ((1 : Nat) : Int))
          = ((⟨"t", "c", .running, [⟨"a", 0⟩, ⟨"b", 1⟩, ⟨"c", 2⟩],
              "abc", none, []⟩ : GenerationTask).chunks.drop 1).map
              (fun c => .chunk c.content (c.index : Int)) ∧
        ((⟨"t", "c", .running, [⟨"a", 0⟩, ⟨"b", 1⟩, ⟨"c", 2⟩],
            "abc", none, []⟩ : GenerationTask).chunks.drop 1).map
            (fun c => c.index)
          = List.range' 1 ((⟨"t", "c", .running, [⟨"a", 0⟩, ⟨"b", 1⟩, ⟨"c", 2⟩],
              "abc", none, []⟩ : GenerationTask).chunks.length - 1)) :=
  ⟨by decide, subscribe_replay_exact _ 1 (by decide)⟩

/-! ### Claim C10 — non-numeric `from` query parameter -/

theorem replayEvents_nan (t : GenerationTask) : replayEvents t .nan = [] := by
  simp [replayEvents, jsGe]

/-- C10: when the `from` query parameter does not parse (`parseInt` yields
`NaN`), the replay filter `c.index >= NaN` matches no stored fragment, so the
subscriber gets an empty replay — missing every already-produced fragment —
yet is still registered in the live subscriber set of a running task. -/
theorem nan_from_param_empty_replay (t : GenerationTask)
    (fromParam : Option String) (sid : Nat)
    (h1 : parsedFromParam fromParam = .nan) (h2 : t.status = .running) :
    handleTaskStream t fromParam sid
      = ({ t with subscribers := t.subscribers ++ [{ id := sid, canceled := false }] },
         [], true) := by
  simp [handleTaskStream, subscribeStart, h1, h2, replayEvents_nan]

/-- C10 witness: `from=abc` against a running task with two stored
fragments. -/
theorem nan_from_param_empty_replay_witness :
    parsedFromParam (some "abc") = .nan ∧
      (⟨"t", "c", .running, [⟨"Hel", 0⟩, ⟨"lo", 1⟩], "Hello", none, []⟩ :
          GenerationTask).status = .running ∧
      handleTaskStream
          (⟨"t", "c", .running, [⟨"Hel", 0⟩, ⟨"lo", 1⟩], "Hello", none, []⟩ :
            GenerationTask) (some "abc") 3
        = (⟨"t", "c", .running, [⟨"Hel", 0⟩, ⟨"lo", 1⟩], "Hello", none,
            [{ id := 3, canceled := false }]⟩, [], true) :=
  ⟨by decide, by decide,
    nan_from_param_empty_replay _ (some "abc") 3 (by decide) (by decide)⟩

/-! ### Claim C6 — HTTP failure on iteration 1 -/

theorem loopGo_fail_step (env : Env) (f : Flags) (fuel iteration : Nat)
    (st : Nat) (body : String) (rest : List EngineResp) (s : RunState) :
    loopGo env f (fuel + 1) iteration (.fail st body :: rest) s
      = .error ("Ollama error (" ++ toString st ++ "): " ++ body,
          { s with calls := s.calls ++
              [.engine (!hasToolsB f || decide (iteration > 1))] }) := rfl

/-- C6: an engine call that returns a non-success HTTP status on iteration 1
throws; the task ends in `error` with the failure message recorded, every
(still attached, non-cancelled) subscriber receives exactly one error event
carrying that message and is closed, and no Persistence Sink write occurs. -/
theorem engine_http_failure_spec (env : Env) (f : Flags)
    (id conv : String) (msgs : List ChatMessage) (subs : List Subscriber)
    (st : Nat) (body : String) (rest : List EngineResp)
    (h : env.resps = .fail st body :: rest) :
    (processTask env f (initialRunState id conv msgs subs)).task.status = .error ∧
      (processTask env f (initialRunState id conv msgs subs)).task.error
        = some ("Ollama error (" ++ toString st ++ "): " ++ body) ∧
      (processTask env f (initialRunState id conv msgs subs)).dbWrites = [] ∧
      (processTask env f (initialRunState id conv msgs subs)).delivered
        = (subs.filter (fun c => !c.canceled)).map
            (fun c => (c.id, .errorEv ("Ollama error (" ++ toString st ++ "): " ++ body))) ∧
      (processTask env f (initialRunState id conv msgs subs)).task.subscribers = [] := by
  have h5 : (5 : Nat) = 4 + 1 := rfl
  simp only [processTask, h, h5, loopGo_fail_step, startTaskCatch, setStatus,
    notifySubscribers, closeSubscribers, initialRunState]
  simp

/-- C6 witness: HTTP 500 with body `"boom"`, one attached subscriber. -/
theorem engine_http_failure_spec_witness :
    (⟨[.fail 500 "boom"], ⟨fun _ => .ok "", fun _ => .timedOut⟩, none⟩ : Env).resps
        = .fail 500 "boom" :: [] ∧
      ((processTask ⟨[.fail 500 "boom"], ⟨fun _ => .ok "", fun _ => .timedOut⟩, none⟩
          ⟨false, false⟩ (initialRunState "t" "c" [] [⟨0, false⟩])).task.status = .error ∧
        (processTask ⟨[.fail 500 "boom"], ⟨fun _ => .ok "", fun _ => .timedOut⟩, none⟩
          ⟨false, false⟩ (initialRunState "t" "c" [] [⟨0, false⟩])).task.error
          = some ("Ollama error (" ++ toString 500 ++ "): " ++ "boom") ∧
        (processTask ⟨[.fail 500 "boom"], ⟨fun _ => .ok "", fun _ => .timedOut⟩, none⟩
          ⟨false, false⟩ (initialRunState "t" "c" [] [⟨0, false⟩])).dbWrites = [] ∧
        (processTask ⟨[.fail 500 "boom"], ⟨fun _ => .ok "", fun _ => .timedOut⟩, none⟩
          ⟨false, false⟩ (initialRunState "t" "c" [] [⟨0, false⟩])).delivered
          = (([⟨0, false⟩] : List Subscriber).filter (fun c => !c.canceled)).map
              (fun c => (c.id, .errorEv ("Ollama error (" ++ toString 500 ++ "): " ++ "boom"))) ∧
        (processTask ⟨[.fail 500 "boom"], ⟨fun _ => .ok "", fun _ => .timedOut⟩, none⟩
          ⟨false, false⟩ (initialRunState "t" "c" [] [⟨0, false⟩])).task.subscribers = []) :=
  ⟨rfl, engine_http_failure_spec _ _ "t" "c" [] [⟨0, false⟩] 500 "boom" [] rfl⟩

/-! ### Claim C1 — counterexample: `fullResponse` is stale mid-stream -/

/-- C1 counterexample: during streaming, `streamFromOllama` pushes one stored
fragment per token (the `foldl pushChunk` below is its per-token loop) while
`task.fullResponse` is only updated after the stream ends.  Concretely, after
the first fragment append of the stream `["Hel", "lo"]` the task holds one
fragment with text `"Hel"` but `fullResponse` is still `""`, so the claimed
invariant fails between individual token appends. -/
theorem fullResponse_midstream_stale :
    (pushChunk (initialRunState "t" "c" [] []) "Hel").task.chunks = [⟨"Hel", 0⟩] ∧
      (pushChunk (initialRunState "t" "c" [] []) "Hel").task.fullResponse = "" ∧
      (pushChunk (initialRunState "t" "c" [] []) "Hel").task.fullResponse
        ≠ chunksConcat (pushChunk (initialRunState "t" "c" [] []) "Hel").task.chunks ∧
      (streamTokens (.ndjson ["Hel", "lo"])).foldl pushChunk (initialRunState "t" "c" [] [])
        = pushChunk (pushChunk (initialRunState "t" "c" [] []) "Hel") "lo" := by
  decide

/-! ### Claim C4 — counterexample: the tool notice is not a stored fragment -/

/-- C4 counterexample: in a tools-enabled run whose first response requests
`web_search` and whose second streams one token, the "executing" notice is
broadcast with index `-1` (not the next fragment index, which goes to the
streamed token), is never stored in `task.chunks`, and consequently a
subscriber attaching afterwards replays only the streamed fragment — the
notice is not replayed. -/
theorem tool_notice_not_persisted :
    (processTask
        ⟨[.msg "" [⟨"web_search", "q"⟩], .ndjson ["The answer"]],
          ⟨fun _ => .ok "results", fun _ => .timedOut⟩, none⟩
        ⟨true, false⟩ (initialRunState "t" "c" [] [⟨0, false⟩])).delivered
      = [(0, .chunk (noticeText "web_search") (-1)),
         (0, .chunk "The answer" 0), (0, .done)] ∧
    (processTask
        ⟨[.msg "" [⟨"web_search", "q"⟩], .ndjson ["The answer"]],
          ⟨fun _ => .ok "results", fun _ => .timedOut⟩, none⟩
        ⟨true, false⟩ (initialRunState "t" "c" [] [⟨0, false⟩])).task.chunks
      = [⟨"The answer", 0⟩] ∧
    replayEvents
        (processTask
          ⟨[.msg "" [⟨"web_search", "q"⟩], .ndjson ["The answer"]],
            ⟨fun _ => .ok "results", fun _ => .timedOut⟩, none⟩
          ⟨true, false⟩ (initialRunState "t" "c" [] [⟨0, false⟩])).task
        (.num 0)
      = [.chunk "The answer" 0] := by
  decide

/-! ### Claim C5 — counterexample: terminal status overwritten on db throw -/

/-- C5 counterexample: when the Persistence Sink write throws after the
`completed` transition, `startTask`'s catch overwrites the terminal status:
the run assigns `completed` and then `error`, and the task ends in `error`. -/
theorem completed_overwritten_on_db_throw :
    (processTask ⟨[.ndjson ["Hi"]], ⟨fun _ => .ok "", fun _ => .timedOut⟩, some "disk full"⟩
        ⟨false, false⟩ (initialRunState "t" "c" [] [⟨0, false⟩])).termAssignments
      = [.completed, .error] ∧
    (processTask ⟨[.ndjson ["Hi"]], ⟨fun _ => .ok "", fun _ => .timedOut⟩, some "disk full"⟩
        ⟨false, false⟩ (initialRunState "t" "c" [] [⟨0, false⟩])).task.status = .error ∧
    (processTask ⟨[.ndjson ["Hi"]], ⟨fun _ => .ok "", fun _ => .timedOut⟩, some "disk full"⟩
        ⟨false, false⟩ (initialRunState "t" "c" [] [⟨0, false⟩])).task.error
      = some "disk full" := by
  decide

/-! ### Claim C9 — counterexample: errored tasks are never cleaned up -/

/-- C9 counterexample: a task that reaches the `error` terminal state never
schedules the deferred 5-minute registry removal — the `setTimeout` lives on
the success path only, and `startTask`'s catch does not schedule one. -/
theorem error_task_never_cleaned :
    (processTask ⟨[.fail 502 "down"], ⟨fun _ => .ok "", fun _ => .timedOut⟩, none⟩
        ⟨false, false⟩ (initialRunState "t" "c" [] [])).task.status = .error ∧
    (processTask ⟨[.fail 502 "down"], ⟨fun _ => .ok "", fun _ => .timedOut⟩, none⟩
        ⟨false, false⟩ (initialRunState "t" "c" [] [])).cleanupScheduled = false := by
  decide

/-! ### Counting lemmas for subscriber sets and delivery logs -/

theorem cnt_aux (sid : Nat) : ∀ subs : List Subscriber,
    ((subs.filter (fun c => !c.canceled)).filter
        (fun c => c.id == sid && !c.canceled)).length
      = (subs.filter (fun c => c.id == sid && !c.canceled)).length := by
  intro subs
  induction subs with
  | nil => rfl
  | cons c rest ih =>
      cases hc : c.canceled <;> cases hid : (c.id == sid) <;>
        simp [List.filter_cons, hc, hid, ih]

theorem filter_id_canc (sid : Nat) : ∀ subs : List Subscriber,
    ((subs.filter (fun c => !c.canceled)).filter (fun c => c.id == sid)).length
      = (subs.filter (fun c => c.id == sid && !c.canceled)).length := by
  intro subs
  induction subs with
  | nil => rfl
  | cons c rest ih =>
      cases hc : c.canceled <;> cases hid : (c.id == sid) <;>
        simp [List.filter_cons, hc, hid, ih]

theorem termCount_append (sid : Nat) (d l : List (Nat × Event)) :
    termCount sid (d ++ l) = termCount sid d + termCount sid l := by
  simp [termCount, List.filter_append]

theorem termCount_nonterm (sid : Nat) : ∀ l : List (Nat × Event),
    (∀ p ∈ l, isTerm p.2 = false) → termCount sid l = 0 := by
  intro l h
  induction l with
  | nil => rfl
  | cons p rest ih =>
      have hp : isTerm p.2 = false := h p (List.mem_cons_self _ _)
      have := ih (fun q hq => h q (List.mem_cons_of_mem _ hq))
      simpa [termCount, List.filter_cons, hp] using this

theorem termCount_map_term (sid : Nat) (ev : Event) (h : isTerm ev = true) :
    ∀ subs : List Subscriber,
      termCount sid (subs.map (fun c => (c.id, ev)))
        = (subs.filter (fun c => c.id == sid)).length := by
  intro subs
  induction subs with
  | nil => rfl
  | cons c rest ih =>
      cases hid : (c.id == sid) <;>
        simp [termCount, List.filter_cons, h, hid, ih, termCount] at ih ⊢ <;>
        simpa [termCount, hid] using ih

/-- `executeTool` is total at the dispatch boundary: every input produces an
`.ok` result text. -/
theorem executeTool_total (env : ToolEnv) (toolName args : String) :
    ∃ text, executeTool env toolName args = .ok text := by
  unfold executeTool
  by_cases h1 : toolName = "web_search"
  · simp only [h1, if_pos rfl]
    match env.searchImpl args with
    | .ok r => exact ⟨r, rfl⟩
    | .error e => exact ⟨_, rfl⟩
  · by_cases h2 : toolName = "execute_python"
    · simp [h1, h2]
    · simp [h1, h2]

/-! ### Step-frame lemmas -/

theorem stepFrame_refl (s : RunState) : StepFrame s s :=
  ⟨rfl, rfl, rfl, rfl, rfl, rfl, rfl, rfl, fun _ => rfl, ⟨[], by simp, by simp⟩⟩

theorem stepFrame_trans {s1 s2 s3 : RunState}
    (h12 : StepFrame s1 s2) (h23 : StepFrame s2 s3) : StepFrame s1 s3 := by
  obtain ⟨a1, a2, a3, a4, a5, a6, a7, a8, a9, l1, hl1, hl1nt⟩ := h12
  obtain ⟨b1, b2, b3, b4, b5, b6, b7, b8, b9, l2, hl2, hl2nt⟩ := h23
  refine ⟨b1.trans a1, b2.trans a2, b3.trans a3, b4.trans a4, b5.trans a5,
    b6.trans a6, b7.trans a7, b8.trans a8,
    fun sid => (b9 sid).trans (a9 sid), l1 ++ l2, ?_, ?_⟩
  · rw [hl2, hl1, List.append_assoc]
  · intro p hp
    rcases List.mem_append.mp hp with h | h
    · exact hl1nt p h
    · exact hl2nt p h

theorem stepFrame_notify (s : RunState) (ev : Event) (h : isTerm ev = false) :
    StepFrame s (notifySubscribers s ev) := by
  refine ⟨rfl, rfl, rfl, rfl, rfl, rfl, rfl, rfl, ?_, ?_⟩
  · intro sid
    show ((s.task.subscribers.filter (fun c => !c.canceled)).filter
        (fun c => c.id == sid && !c.canceled)).length = _
    exact cnt_aux sid s.task.subscribers
  · refine ⟨_, rfl, ?_⟩
    intro p hp
    simp only [List.mem_map] at hp
    obtain ⟨c, -, hc⟩ := hp
    rw [← hc]
    exact h

theorem stepFrame_pushChunk (s : RunState) (t : String) :
    StepFrame s (pushChunk s t) := by
  unfold pushChunk
  exact stepFrame_trans
    (⟨rfl, rfl, rfl, rfl, rfl, rfl, rfl, rfl, fun _ => rfl, ⟨[], by simp, by simp⟩⟩ :
      StepFrame s _)
    (stepFrame_notify _ _ rfl)

theorem stepFrame_fold (toks : List String) : ∀ s : RunState,
    StepFrame s (toks.foldl pushChunk s) := by
  induction toks with
  | nil => intro s; exact stepFrame_refl s
  | cons t ts ih =>
      intro s
      exact stepFrame_trans (stepFrame_pushChunk s t) (ih (pushChunk s t))

/-! ### Exact effects of the streaming fold and the tool loop -/

theorem pushChunk_fields (s : RunState) (t : String) :
    (pushChunk s t).task.chunks
        = s.task.chunks ++ [{ content := t, index := s.task.chunks.length }] ∧
      (pushChunk s t).task.fullResponse = s.task.fullResponse ∧
      (pushChunk s t).calls = s.calls ∧
      (pushChunk s t).messages = s.messages :=
  ⟨rfl, rfl, rfl, rfl⟩

theorem foldPush_fields (toks : List String) : ∀ s : RunState,
    (toks.foldl pushChunk s).task.chunks
        = s.task.chunks ++ mkChunks s.task.chunks.length toks ∧
      (toks.foldl pushChunk s).task.fullResponse = s.task.fullResponse ∧
      (toks.foldl pushChunk s).calls = s.calls ∧
      (toks.foldl pushChunk s).messages = s.messages := by
  induction toks with
  | nil => intro s; simp [mkChunks]
  | cons t ts ih =>
      intro s
      obtain ⟨ihc, ihf, ihcalls, ihm⟩ := ih (pushChunk s t)
      obtain ⟨pc, pf, pcalls, pm⟩ := pushChunk_fields s t
      refine ⟨?_, by rw [List.foldl_cons, ihf, pf], by rw [List.foldl_cons, ihcalls, pcalls],
        by rw [List.foldl_cons, ihm, pm]⟩
      rw [List.foldl_cons, ihc, pc]
      simp [mkChunks, List.length_append]

theorem runTools_spec (env : Env) : ∀ (tcs : List ToolCall) (s : RunState),
    ∃ s', runTools env tcs s = .ok s' ∧ StepFrame s s' ∧
      s'.task.chunks = s.task.chunks ∧
      s'.task.fullResponse = s.task.fullResponse ∧
      s'.calls = s.calls ++ tcs.map (fun tc => ExtCall.tool tc.name tc.args) := by
  intro tcs
  induction tcs with
  | nil => intro s; exact ⟨s, rfl, stepFrame_refl s, rfl, rfl, by simp⟩
  | cons tc rest ih =>
      intro s
      obtain ⟨text, htext⟩ := executeTool_total env.tools tc.name tc.args
      set s1 := notifySubscribers s (.chunk (noticeText tc.name) (-1)) with hs1
      set s2 : RunState := { s1 with calls := s1.calls ++ [.tool tc.name tc.args] } with hs2
      set s3 : RunState := { s2 with messages := s2.messages ++
        [{ role := "tool", content := quoteJson text }] } with hs3
      obtain ⟨s', hrun, hframe, hchunks, hfull, hcalls⟩ := ih s3
      refine ⟨s', ?_, ?_, ?_, ?_, ?_⟩
      · show runTools env (tc :: rest) s = .ok s'
        unfold runTools
        rw [htext]
        exact hrun
      · have f1 : StepFrame s s1 := stepFrame_notify s _ rfl
        have f2 : StepFrame s1 s2 :=
          ⟨rfl, rfl, rfl, rfl, rfl, rfl, rfl, rfl, fun _ => rfl, ⟨[], by simp, by simp⟩⟩
        have f3 : StepFrame s2 s3 :=
          ⟨rfl, rfl, rfl, rfl, rfl, rfl, rfl, rfl, fun _ => rfl, ⟨[], by simp, by simp⟩⟩
        exact stepFrame_trans f1 (stepFrame_trans f2 (stepFrame_trans f3 hframe))
      · rw [hchunks]; rfl
      · rw [hfull]; rfl
      · rw [hcalls]
        show (s.calls ++ [ExtCall.tool tc.name tc.args]) ++ _ = _
        simp

theorem stream_branch_inv (toks : List String) (s : RunState) (h : TaskInv s.task) :
    ((toks.foldl pushChunk s).task.fullResponse ++ toks.foldl (fun a t => a ++ t) "")
        = chunksConcat (toks.foldl pushChunk s).task.chunks ∧
      wellIndexedFrom 0 (toks.foldl pushChunk s).task.chunks = true := by
  obtain ⟨hc, hf, -, -⟩ := foldPush_fields toks s
  constructor
  · rw [hf, hc, chunksConcat_append, chunksConcat_mkChunks, h.1, strJoin_of_foldl]
    simp [String.empty_append]
  · rw [hc]
    exact wellIndexedFrom_append 0 _ _ h.2
      (by simpa using mkChunks_wellIndexed s.task.chunks.length toks)

theorem stream_state_frame (toks : List String) (s1 : RunState) :
    StepFrame s1
        { toks.foldl pushChunk s1 with
          task := { (toks.foldl pushChunk s1).task with
            fullResponse := (toks.foldl pushChunk s1).task.fullResponse
              ++ toks.foldl (fun a t => a ++ t) "" } } ∧
      (TaskInv s1.task →
        TaskInv ({ toks.foldl pushChunk s1 with
          task := { (toks.foldl pushChunk s1).task with
            fullResponse := (toks.foldl pushChunk s1).task.fullResponse
              ++ toks.foldl (fun a t => a ++ t) "" } } : RunState).task) := by
  constructor
  · exact stepFrame_trans (stepFrame_fold toks s1)
      ⟨rfl, rfl, rfl, rfl, rfl, rfl, rfl, rfl, fun _ => rfl,
        ⟨[], by rw [List.append_nil], by simp⟩⟩
  · intro h
    exact stream_branch_inv toks s1 h

theorem content_branch_inv (c : String) (s1 : RunState) (h : TaskInv s1.task) :
    TaskInv (pushChunk
      { s1 with task := { s1.task with fullResponse := s1.task.fullResponse ++ c } }
      c).task := by
  constructor
  · show s1.task.fullResponse ++ c
      = chunksConcat (s1.task.chunks ++ [{ content := c, index := s1.task.chunks.length }])
    rw [chunksConcat_append, h.1]
    simp [chunksConcat, String.append_empty]
  · show wellIndexedFrom 0
      (s1.task.chunks ++ [{ content := c, index := s1.task.chunks.length }]) = true
    refine wellIndexedFrom_append 0 _ _ h.2 ?_
    simp [wellIndexedFrom]

theorem runTools_ok_inv {env : Env} {tcs : List ToolCall} {s2 s3 : RunState}
    (heq : runTools env tcs s2 = .ok s3) :
    StepFrame s2 s3 ∧ s3.task.chunks = s2.task.chunks ∧
      s3.task.fullResponse = s2.task.fullResponse ∧
      s3.calls = s2.calls ++ tcs.map (fun tc => ExtCall.tool tc.name tc.args) := by
  obtain ⟨s', hrun, hfr, hch, hfu, hca⟩ := runTools_spec env tcs s2
  rw [hrun] at heq
  cases heq
  exact ⟨hfr, hch, hfu, hca⟩

theorem runTools_ne_error {env : Env} {tcs : List ToolCall} {s2 : RunState}
    {e : String × RunState} (heq : runTools env tcs s2 = .error e) : False := by
  obtain ⟨s', hrun, -⟩ := runTools_spec env tcs s2
  rw [hrun] at heq
  cases heq

theorem loopGo_frame (env : Env) (f : Flags) (fuel : Nat) :
    ∀ (iteration : Nat) (resps : List EngineResp) (s : RunState),
      StepFrame s (resultState (loopGo env f fuel iteration resps s)) ∧
        (TaskInv s.task →
          TaskInv (resultState (loopGo env f fuel iteration resps s)).task) := by
  induction fuel with
  | zero => intro it resps s; exact ⟨stepFrame_refl s, fun h => h⟩
  | succ fuel ih =>
      intro it resps s
      cases resps with
      | nil =>
          exact ⟨⟨rfl, rfl, rfl, rfl, rfl, rfl, rfl, rfl, fun _ => rfl,
            ⟨[], (List.append_nil s.delivered).symm, by simp⟩⟩, fun h => h⟩
      | cons resp rest =>
          have frameCall : ∀ (b : Bool),
              StepFrame s { s with calls := s.calls ++ [ExtCall.engine b] } :=
            fun b => ⟨rfl, rfl, rfl, rfl, rfl, rfl, rfl, rfl, fun _ => rfl,
              ⟨[], (List.append_nil s.delivered).symm, by simp⟩⟩
          cases resp with
          | fail st body =>
              exact ⟨⟨rfl, rfl, rfl, rfl, rfl, rfl, rfl, rfl, fun _ => rfl,
                ⟨[], (List.append_nil s.delivered).symm, by simp⟩⟩, fun h => h⟩
          | msg c tcs =>
              simp only [loopGo]
              cases hss : (!hasToolsB f || decide (it > 1)) with
              | true =>
                  rw [if_pos rfl]
                  refine ⟨stepFrame_trans (frameCall true) ?_, fun h => ?_⟩
                  · exact (stream_state_frame (streamTokens (.msg c tcs))
                      { s with calls := s.calls ++ [ExtCall.engine true] }).1
                  · exact (stream_state_frame (streamTokens (.msg c tcs))
                      { s with calls := s.calls ++ [ExtCall.engine true] }).2 h
              | false =>
                  rw [if_neg (by simp)]
                  simp only [nonStreamMessage]
                  cases htcs : tcs.isEmpty with
                  | true =>
                      rw [if_pos rfl]
                      refine ⟨stepFrame_trans (frameCall false)
                        (stepFrame_trans ⟨rfl, rfl, rfl, rfl, rfl, rfl, rfl, rfl,
                          fun _ => rfl, ⟨[], (List.append_nil s.delivered).symm, by simp⟩⟩
                          (stepFrame_pushChunk _ c)), fun h => ?_⟩
                      exact content_branch_inv c
                        { s with calls := s.calls ++ [ExtCall.engine false] } h
                  | false =>
                      rw [if_neg (by simp)]
                      split
                      · next s3 heq =>
                          obtain ⟨hfr, hch, hfu, -⟩ := runTools_ok_inv heq
                          have hrec := ih (it + 1) rest s3
                          refine ⟨stepFrame_trans (frameCall false)
                            (stepFrame_trans ⟨rfl, rfl, rfl, rfl, rfl, rfl, rfl, rfl,
                              fun _ => rfl, ⟨[], (List.append_nil s.delivered).symm, by simp⟩⟩
                              (stepFrame_trans hfr hrec.1)), fun h => hrec.2 ?_⟩
                          show s3.task.fullResponse = chunksConcat s3.task.chunks ∧
                            wellIndexedFrom 0 s3.task.chunks = true
                          rw [hch, hfu]
                          exact h
                      · next e heq =>
                          exact absurd heq runTools_ne_error
          | ndjson toks =>
              simp only [loopGo]
              cases hss : (!hasToolsB f || decide (it > 1)) with
              | true =>
                  rw [if_pos rfl]
                  refine ⟨stepFrame_trans (frameCall true) ?_, fun h => ?_⟩
                  · exact (stream_state_frame (streamTokens (.ndjson toks))
                      { s with calls := s.calls ++ [ExtCall.engine true] }).1
                  · exact (stream_state_frame (streamTokens (.ndjson toks))
                      { s with calls := s.calls ++ [ExtCall.engine true] }).2 h
              | false =>
                  rw [if_neg (by simp)]
                  simp only [nonStreamMessage]
                  match toks with
                  | [] =>
                      exact ⟨stepFrame_trans (frameCall false) (stepFrame_refl _),
                        fun h => h⟩
                  | [t] =>
                      refine ⟨stepFrame_trans (frameCall false)
                        (stepFrame_trans ⟨rfl, rfl, rfl, rfl, rfl, rfl, rfl, rfl,
                          fun _ => rfl, ⟨[], (List.append_nil s.delivered).symm, by simp⟩⟩
                          (stepFrame_pushChunk _ t)), fun h => ?_⟩
                      exact content_branch_inv t
                        { s with calls := s.calls ++ [ExtCall.engine false] } h
                  | t1 :: t2 :: ts =>
                      exact ⟨stepFrame_trans (frameCall false) (stepFrame_refl _),
                        fun h => h⟩

/-! ### Completion-phase lemmas -/

theorem startTaskCatch_spec (m : String) (s : RunState) :
    (startTaskCatch m s).task.chunks = s.task.chunks ∧
      (startTaskCatch m s).task.fullResponse = s.task.fullResponse ∧
      (startTaskCatch m s).calls = s.calls ∧
      (startTaskCatch m s).task.subscribers = [] ∧
      (startTaskCatch m s).task.status = .error ∧
      (startTaskCatch m s).task.error = some m ∧
      (startTaskCatch m s).cleanupScheduled = s.cleanupScheduled ∧
      (startTaskCatch m s).dbWrites = s.dbWrites ∧
      (startTaskCatch m s).termAssignments = s.termAssignments ++ [.error] ∧
      (startTaskCatch m s).delivered = s.delivered ++
        (s.task.subscribers.filter (fun c => !c.canceled)).map
          (fun c => (c.id, .errorEv m)) ∧
      (s.firstTermChunks = none →
        (startTaskCatch m s).firstTermChunks = some s.task.chunks.length) ∧
      (∀ n, s.firstTermChunks = some n →
        (startTaskCatch m s).firstTermChunks = some n) := by
  refine ⟨rfl, rfl, rfl, rfl, rfl, rfl, rfl, rfl, rfl, rfl, ?_, ?_⟩
  · intro h
    show (match s.firstTermChunks with
      | none => some s.task.chunks.length
      | some n => some n) = some s.task.chunks.length
    rw [h]
  · intro n h
    show (match s.firstTermChunks with
      | none => some s.task.chunks.length
      | some n => some n) = some n
    rw [h]

theorem completeTask_spec (env : Env) (s : RunState) :
    (completeTask env s).task.chunks = s.task.chunks ∧
      (completeTask env s).task.fullResponse = s.task.fullResponse ∧
      (completeTask env s).calls = s.calls ∧
      (completeTask env s).task.subscribers = [] ∧
      (s.firstTermChunks = none →
        (completeTask env s).firstTermChunks = some s.task.chunks.length) ∧
      ((env.dbFail = none ∨ s.task.fullResponse = "") →
        (completeTask env s).task.status = .completed ∧
          (completeTask env s).cleanupScheduled = true ∧
          (completeTask env s).termAssignments = s.termAssignments ++ [.completed] ∧
          (completeTask env s).task.error = s.task.error ∧
          (completeTask env s).delivered = s.delivered ++
            (s.task.subscribers.filter (fun c => !c.canceled)).map
              (fun c => (c.id, .done))) ∧
      (∀ m, env.dbFail = some m → s.task.fullResponse ≠ "" →
        (completeTask env s).task.status = .error ∧
          (completeTask env s).cleanupScheduled = s.cleanupScheduled ∧
          (completeTask env s).termAssignments
            = s.termAssignments ++ [.completed, .error] ∧
          (completeTask env s).task.error = some m ∧
          (completeTask env s).dbWrites = s.dbWrites ∧
          (completeTask env s).delivered = s.delivered ++
            (s.task.subscribers.filter (fun c => !c.canceled)).map
              (fun c => (c.id, .errorEv m))) := by
  by_cases hemp : s.task.fullResponse = ""
  · have hif : (if (setStatus s .completed).task.fullResponse ≠ "" then
        (match env.dbFail with
          | some m => Except.error (m, setStatus s .completed)
          | none => Except.ok { setStatus s .completed with
              dbWrites := (setStatus s .completed).dbWrites ++
                [((setStatus s .completed).task.conversationId, "assistant",
                  (setStatus s .completed).task.fullResponse)] })
        else Except.ok (setStatus s .completed))
        = Except.ok (setStatus s .completed) := by
      rw [if_neg]
      show ¬s.task.fullResponse ≠ ""
      exact fun hne => hne hemp
    unfold completeTask
    dsimp only
    rw [hif]
    refine ⟨rfl, rfl, rfl, rfl, ?_, ?_, ?_⟩
    · intro h
      show (match s.firstTermChunks with
        | none => some s.task.chunks.length
        | some n => some n) = some s.task.chunks.length
      rw [h]
    · intro _
      exact ⟨rfl, rfl, rfl, rfl, rfl⟩
    · intro m _ habs
      exact absurd hemp habs
  · cases hdb : env.dbFail with
    | none =>
        have hif : (if (setStatus s .completed).task.fullResponse ≠ "" then
            (match env.dbFail with
              | some m => Except.error (m, setStatus s .completed)
              | none => Except.ok { setStatus s .completed with
                  dbWrites := (setStatus s .completed).dbWrites ++
                    [((setStatus s .completed).task.conversationId, "assistant",
                      (setStatus s .completed).task.fullResponse)] })
            else Except.ok (setStatus s .completed))
            = Except.ok { setStatus s .completed with
                dbWrites := (setStatus s .completed).dbWrites ++
                  [((setStatus s .completed).task.conversationId, "assistant",
                    (setStatus s .completed).task.fullResponse)] } := by
          rw [if_pos (show (setStatus s .completed).task.fullResponse ≠ "" from hemp), hdb]
        unfold completeTask
        dsimp only
        rw [hif]
        refine ⟨rfl, rfl, rfl, rfl, ?_, ?_, ?_⟩
        · intro h
          show (match s.firstTermChunks with
            | none => some s.task.chunks.length
            | some n => some n) = some s.task.chunks.length
          rw [h]
        · intro _
          exact ⟨rfl, rfl, rfl, rfl, rfl⟩
        · intro m hm
          cases hm
    | some m0 =>
        have hif : (if (setStatus s .completed).task.fullResponse ≠ "" then
            (match env.dbFail with
              | some m => Except.error (m, setStatus s .completed)
              | none => Except.ok { setStatus s .completed with
                  dbWrites := (setStatus s .completed).dbWrites ++
                    [((setStatus s .completed).task.conversationId, "assistant",
                      (setStatus s .completed).task.fullResponse)] })
            else Except.ok (setStatus s .completed))
            = Except.error (m0, setStatus s .completed) := by
          rw [if_pos (show (setStatus s .completed).task.fullResponse ≠ "" from hemp), hdb]
        unfold completeTask
        dsimp only
        rw [hif]
        obtain ⟨c1, c2, c3, c4, c5, c6, c7, c8, c9, c10, c11, c12⟩ :=
          startTaskCatch_spec m0 (setStatus s .completed)
        refine ⟨c1, c2, c3, c4, ?_, ?_, ?_⟩
        · intro h
          have hset : (setStatus s .completed).firstTermChunks
              = some s.task.chunks.length := by
            show (match s.firstTermChunks with
              | none => some s.task.chunks.length
              | some n => some n) = some s.task.chunks.length
            rw [h]
          exact c12 s.task.chunks.length hset
        · intro hcontra
          rcases hcontra with h | h
          · cases h
          · exact absurd h hemp
        · intro m hm hne
          cases hm
          refine ⟨c5, c7, ?_, c6, c8, c10⟩
          rw [c9]
          show (s.termAssignments ++ [Status.completed]) ++ [Status.error]
            = s.termAssignments ++ [Status.completed, Status.error]
          simp

/-! ### Claim C1 (amended) — `fullResponse` vs fragment concatenation -/

/-- C1 (amended): at the end of any run — after every completed engine
interaction and terminal transition — `fullResponse` equals the index-ordered
concatenation of the stored fragment texts, and the fragment indices are
contiguous from 0.  (The unamended claim, that this also holds between
individual token appends mid-stream, is refuted by
`fullResponse_midstream_stale`.) -/
theorem fullResponse_eq_concat_after_run (env : Env) (f : Flags)
    (id conv : String) (msgs : List ChatMessage) (subs : List Subscriber) :
    (processTask env f (initialRunState id conv msgs subs)).task.fullResponse
        = chunksConcat
            (processTask env f (initialRunState id conv msgs subs)).task.chunks ∧
      wellIndexedFrom 0
          (processTask env f (initialRunState id conv msgs subs)).task.chunks
        = true := by
  have hfr := loopGo_frame env f 5 1 env.resps (initialRunState id conv msgs subs)
  unfold processTask
  cases hlg : loopGo env f 5 1 env.resps (initialRunState id conv msgs subs) with
  | ok s =>
      rw [hlg] at hfr
      have hinv : TaskInv s.task := hfr.2 ⟨rfl, rfl⟩
      obtain ⟨c1, c2, -⟩ := completeTask_spec env s
      dsimp only
      rw [c1, c2]
      exact ⟨hinv.1, hinv.2⟩
  | error e =>
      obtain ⟨m, s⟩ := e
      rw [hlg] at hfr
      have hinv : TaskInv s.task := hfr.2 ⟨rfl, rfl⟩
      obtain ⟨c1, c2, -⟩ := startTaskCatch_spec m s
      dsimp only
      rw [c1, c2]
      exact ⟨hinv.1, hinv.2⟩

/-! ### Claim C9 (amended) — deferred registry removal -/

/-- C9 (amended): the deferred 5-minute registry removal is scheduled exactly
when the run ends with status `completed`; every `error`-terminal run —
engine failure, or a persistence write that throws — never schedules it.
(The unamended claim, that removal is scheduled for every terminal state, is
refuted by `error_task_never_cleaned`.) -/
theorem cleanup_iff_completed (env : Env) (f : Flags)
    (id conv : String) (msgs : List ChatMessage) (subs : List Subscriber) :
    (processTask env f (initialRunState id conv msgs subs)).cleanupScheduled = true
      ↔ (processTask env f (initialRunState id conv msgs subs)).task.status
          = .completed := by
  have hfr := loopGo_frame env f 5 1 env.resps (initialRunState id conv msgs subs)
  unfold processTask
  cases hlg : loopGo env f 5 1 env.resps (initialRunState id conv msgs subs) with
  | ok s =>
      rw [hlg] at hfr
      obtain ⟨-, -, -, -, hclean, -, -, -, -, -⟩ := hfr.1
      obtain ⟨-, -, -, -, -, hok, herr⟩ := completeTask_spec env s
      dsimp only
      by_cases hcond : env.dbFail = none ∨ s.task.fullResponse = ""
      · obtain ⟨hst, hcl, -, -, -⟩ := hok hcond
        rw [hst, hcl]
        simp
      · have hm : ∃ m, env.dbFail = some m := by
          cases hdb2 : env.dbFail with
          | none => exact absurd (Or.inl hdb2) hcond
          | some m => exact ⟨m, rfl⟩
        obtain ⟨m, hm⟩ := hm
        have hne : s.task.fullResponse ≠ "" := fun h => hcond (Or.inr h)
        obtain ⟨hst, hcl, -, -, -, -⟩ := herr m hm hne
        rw [hst, hcl]
        have hclean0 : s.cleanupScheduled = false := hclean
        rw [hclean0]
        simp
  | error e =>
      obtain ⟨m, s⟩ := e
      rw [hlg] at hfr
      obtain ⟨-, -, -, -, hclean, -, -, -, -, -⟩ := hfr.1
      obtain ⟨-, -, -, -, hst, -, hcl, -⟩ := startTaskCatch_spec m s
      dsimp only
      rw [hst, hcl]
      have hclean0 : s.cleanupScheduled = false := hclean
      rw [hclean0]
      simp

/-! ### Claim C5 (amended) — terminal transitions and terminal signals -/

/-- C5 (amended): every run reaches a terminal status; no fragments are
appended after the first terminal transition (the chunk count recorded at the
first terminal assignment equals the final chunk count); and a subscriber
attached from the start whose controller is never cancelled receives exactly
one terminal signal.  The terminal transition is assigned exactly once —
`termAssignments = [final status]` — except when the persistence write throws
after the `completed` transition, in which case the status is overwritten
`completed → error` (refuted original behaviour: see
`completed_overwritten_on_db_throw`). -/
theorem terminal_transition_spec (env : Env) (f : Flags)
    (id conv : String) (msgs : List ChatMessage) (subs : List Subscriber)
    (sid : Nat)
    (hone : (subs.filter (fun c => c.id == sid && !c.canceled)).length = 1) :
    ((processTask env f (initialRunState id conv msgs subs)).task.status = .completed ∨
        (processTask env f (initialRunState id conv msgs subs)).task.status = .error) ∧
      ((processTask env f (initialRunState id conv msgs subs)).termAssignments
          = [(processTask env f (initialRunState id conv msgs subs)).task.status] ∨
        ((processTask env f (initialRunState id conv msgs subs)).termAssignments
            = [.completed, .error] ∧
          (processTask env f (initialRunState id conv msgs subs)).task.status = .error ∧
          env.dbFail ≠ none)) ∧
      (processTask env f (initialRunState id conv msgs subs)).firstTermChunks
        = some (processTask env f (initialRunState id conv msgs subs)).task.chunks.length ∧
      termCount sid (processTask env f (initialRunState id conv msgs subs)).delivered
        = 1 := by
  have hfr := loopGo_frame env f 5 1 env.resps (initialRunState id conv msgs subs)
  unfold processTask
  cases hlg : loopGo env f 5 1 env.resps (initialRunState id conv msgs subs) with
  | ok s =>
      rw [hlg] at hfr
      obtain ⟨-, -, -, -, -, -, hterm, hftc, hcnt, l, hdel, hnt⟩ := hfr.1
      have hterm0 : s.termAssignments = [] := hterm
      have hftc0 : s.firstTermChunks = none := hftc
      have hcnt0 : cntSubs sid s.task = 1 := (hcnt sid).trans hone
      have hdel0 : termCount sid s.delivered = 0 := by
        have : s.delivered = [] ++ l := hdel
        rw [this, termCount_append]
        show termCount sid [] + termCount sid l = 0
        rw [termCount_nonterm sid l hnt]
        rfl
      obtain ⟨c1, c2, -, -, c5, hok, herr⟩ := completeTask_spec env s
      dsimp only
      by_cases hcond : env.dbFail = none ∨ s.task.fullResponse = ""
      · obtain ⟨hst, -, ht, -, hd⟩ := hok hcond
        refine ⟨Or.inl hst, Or.inl ?_, ?_, ?_⟩
        · rw [ht, hterm0, hst]
          rfl
        · rw [c5 hftc0, c1]
        · rw [hd, termCount_append, hdel0, termCount_map_term sid .done rfl,
            filter_id_canc, Nat.zero_add]
          exact hcnt0
      · have hm : ∃ m, env.dbFail = some m := by
          cases hdb2 : env.dbFail with
          | none => exact absurd (Or.inl hdb2) hcond
          | some m => exact ⟨m, rfl⟩
        obtain ⟨m, hm⟩ := hm
        have hne : s.task.fullResponse ≠ "" := fun h => hcond (Or.inr h)
        obtain ⟨hst, -, ht, -, -, hd⟩ := herr m hm hne
        refine ⟨Or.inr hst, Or.inr ⟨?_, hst, ?_⟩, ?_, ?_⟩
        · rw [ht, hterm0]
          rfl
        · rw [hm]
          exact fun h => Option.noConfusion h
        · rw [c5 hftc0, c1]
        · rw [hd, termCount_append, hdel0, termCount_map_term sid (.errorEv m) rfl,
            filter_id_canc, Nat.zero_add]
          exact hcnt0
  | error e =>
      obtain ⟨m, s⟩ := e
      rw [hlg] at hfr
      obtain ⟨-, -, -, -, -, -, hterm, hftc, hcnt, l, hdel, hnt⟩ := hfr.1
      have hterm0 : s.termAssignments = [] := hterm
      have hftc0 : s.firstTermChunks = none := hftc
      have hcnt0 : cntSubs sid s.task = 1 := (hcnt sid).trans hone
      have hdel0 : termCount sid s.delivered = 0 := by
        have : s.delivered = [] ++ l := hdel
        rw [this, termCount_append]
        show termCount sid [] + termCount sid l = 0
        rw [termCount_nonterm sid l hnt]
        rfl
      obtain ⟨c1, -, -, -, hst, -, -, -, c9, c10, c11, -⟩ := startTaskCatch_spec m s
      dsimp only
      refine ⟨Or.inr hst, Or.inl ?_, ?_, ?_⟩
      · rw [c9, hterm0, hst]
        rfl
      · rw [c11 hftc0, c1]
      · rw [c10, termCount_append, hdel0, termCount_map_term sid (.errorEv m) rfl,
          filter_id_canc, Nat.zero_add]
        exact hcnt0

/-- C5 witness: engine unreachable (empty response environment), one attached
subscriber with id 0. -/
theorem terminal_transition_spec_witness :
    ((([⟨0, false⟩] : List Subscriber).filter
        (fun c => c.id == 0 && !c.canceled)).length = 1) ∧
      (((processTask ⟨[], ⟨fun _ => .ok "", fun _ => .timedOut⟩, none⟩ ⟨false, false⟩
            (initialRunState "t" "c" [] [⟨0, false⟩])).task.status = .completed ∨
          (processTask ⟨[], ⟨fun _ => .ok "", fun _ => .timedOut⟩, none⟩ ⟨false, false⟩
            (initialRunState "t" "c" [] [⟨0, false⟩])).task.status = .error) ∧
        ((processTask ⟨[], ⟨fun _ => .ok "", fun _ => .timedOut⟩, none⟩ ⟨false, false⟩
              (initialRunState "t" "c" [] [⟨0, false⟩])).termAssignments
            = [(processTask ⟨[], ⟨fun _ => .ok "", fun _ => .timedOut⟩, none⟩ ⟨false, false⟩
                (initialRunState "t" "c" [] [⟨0, false⟩])).task.status] ∨
          ((processTask ⟨[], ⟨fun _ => .ok "", fun _ => .timedOut⟩, none⟩ ⟨false, false⟩
                (initialRunState "t" "c" [] [⟨0, false⟩])).termAssignments
              = [.completed, .error] ∧
            (processTask ⟨[], ⟨fun _ => .ok "", fun _ => .timedOut⟩, none⟩ ⟨false, false⟩
              (initialRunState "t" "c" [] [⟨0, false⟩])).task.status = .error ∧
            (⟨[], ⟨fun _ => .ok "", fun _ => .timedOut⟩, none⟩ : Env).dbFail ≠ none)) ∧
        (processTask ⟨[], ⟨fun _ => .ok "", fun _ => .timedOut⟩, none⟩ ⟨false, false⟩
            (initialRunState "t" "c" [] [⟨0, false⟩])).firstTermChunks
          = some (processTask ⟨[], ⟨fun _ => .ok "", fun _ => .timedOut⟩, none⟩
              ⟨false, false⟩
              (initialRunState "t" "c" [] [⟨0, false⟩])).task.chunks.length ∧
        termCount 0 (processTask ⟨[], ⟨fun _ => .ok "", fun _ => .timedOut⟩, none⟩
            ⟨false, false⟩ (initialRunState "t" "c" [] [⟨0, false⟩])).delivered = 1) :=
  ⟨by decide,
    terminal_transition_spec ⟨[], ⟨fun _ => .ok "", fun _ => .timedOut⟩, none⟩
      ⟨false, false⟩ "t" "c" [] [⟨0, false⟩] 0 (by decide)⟩

/-! ### Claim C3 — tools-enabled call sequence -/

theorem runTools_one_inv {env : Env} {tc : ToolCall} {s2 s3 : RunState}
    (heq : runTools env [tc] s2 = .ok s3) :
    s3.task.chunks = s2.task.chunks ∧
      s3.task.fullResponse = s2.task.fullResponse ∧
      s3.task.status = s2.task.status ∧
      s3.task.subscribers = s2.task.subscribers.filter (fun c => !c.canceled) ∧
      s3.delivered = s2.delivered ++
        (s2.task.subscribers.filter (fun c => !c.canceled)).map
          (fun cc => (cc.id, Event.chunk (noticeText tc.name) (-1))) ∧
      s3.calls = s2.calls ++ [.tool tc.name tc.args] ∧
      s3.dbWrites = s2.dbWrites ∧
      s3.cleanupScheduled = s2.cleanupScheduled ∧
      s3.termAssignments = s2.termAssignments ∧
      s3.firstTermChunks = s2.firstTermChunks := by
  obtain ⟨text, htext⟩ := executeTool_total env.tools tc.name tc.args
  unfold runTools at heq
  rw [htext] at heq
  cases heq
  exact ⟨rfl, rfl, rfl, rfl, rfl, rfl, rfl, rfl, rfl, rfl⟩

/-- C3: a task started with tools enabled whose first engine response
requests tools performs exactly one non-streaming engine call, then one Tool
Gateway invocation per requested tool (in request order), then exactly one
further engine call in streaming mode — and no third engine call once that
stream ends. -/
theorem tools_run_call_sequence (env : Env) (f : Flags)
    (id conv : String) (msgs : List ChatMessage) (subs : List Subscriber)
    (c : String) (tcs : List ToolCall) (toks : List String)
    (rest : List EngineResp)
    (htools : hasToolsB f = true)
    (hresps : env.resps = .msg c tcs :: .ndjson toks :: rest)
    (htcs : tcs ≠ []) :
    (processTask env f (initialRunState id conv msgs subs)).calls
      = .engine false ::
          (tcs.map (fun tc => ExtCall.tool tc.name tc.args) ++ [.engine true]) := by
  cases tcs with
  | nil => exact absurd rfl htcs
  | cons tc0 tcs' =>
      unfold processTask
      rw [hresps, show (5 : Nat) = Nat.succ 4 from rfl, loopGo.eq_def]
      dsimp only
      have hss1 : (!hasToolsB f || decide ((1 : Nat) > 1)) = false := by
        rw [htools]; rfl
      rw [hss1, if_neg (by simp)]
      simp only [nonStreamMessage]
      dsimp only [List.isEmpty_cons]
      rw [if_neg (by simp : ¬(false = true))]
      split
      · next s3 heq =>
          split at heq
          · next s4 heq4 =>
              have hca := (runTools_ok_inv heq4).2.2.2
              have hca4 : s4.calls
                  = .engine false ::
                      (tc0 :: tcs').map (fun tc => ExtCall.tool tc.name tc.args) := by
                rw [hca]; rfl
              rw [show (4 : Nat) = Nat.succ 3 from rfl, loopGo.eq_def] at heq
              dsimp only at heq
              have hss2 : (!hasToolsB f || decide (1 + 1 > 1)) = true := by
                rw [htools]; rfl
              rw [hss2, if_pos rfl] at heq
              cases heq
              rw [(completeTask_spec env _).2.2.1]
              dsimp only
              rw [(foldPush_fields (streamTokens (.ndjson toks)) _).2.2.1]
              dsimp only
              rw [hca4]
              simp
          · next e heq4 =>
              exact absurd heq4 runTools_ne_error
      · next m s3 heq =>
          split at heq
          · next s4 heq4 =>
              rw [show (4 : Nat) = Nat.succ 3 from rfl, loopGo.eq_def] at heq
              dsimp only at heq
              have hss2 : (!hasToolsB f || decide (1 + 1 > 1)) = true := by
                rw [htools]; rfl
              rw [hss2, if_pos rfl] at heq
              cases heq
          · next e heq4 =>
              exact absurd heq4 runTools_ne_error

/-- C3 witness: search enabled, one requested `web_search` call, a two-token
final stream. -/
theorem tools_run_call_sequence_witness :
    hasToolsB ⟨true, false⟩ = true ∧
      (⟨[.msg "" [⟨"web_search", "q"⟩], .ndjson ["The answer is ", "4"]],
          ⟨fun _ => .ok "results", fun _ => .timedOut⟩, none⟩ : Env).resps
        = .msg "" [⟨"web_search", "q"⟩] :: .ndjson ["The answer is ", "4"] :: [] ∧
      ([⟨"web_search", "q"⟩] : List ToolCall) ≠ [] ∧
      (processTask
          ⟨[.msg "" [⟨"web_search", "q"⟩], .ndjson ["The answer is ", "4"]],
            ⟨fun _ => .ok "results", fun _ => .timedOut⟩, none⟩
          ⟨true, false⟩ (initialRunState "t" "c" [] [])).calls
        = .engine false ::
            (([⟨"web_search", "q"⟩] : List ToolCall).map
              (fun tc => ExtCall.tool tc.name tc.args) ++ [.engine true]) :=
  ⟨rfl, rfl, by decide,
    tools_run_call_sequence _ ⟨true, false⟩ "t" "c" [] [] "" [⟨"web_search", "q"⟩]
      ["The answer is ", "4"] [] rfl rfl (by decide)⟩

/-! ### Claim C4 (amended) — the tool notice is transient -/

theorem foldPush_delivered (toks : List String) : ∀ (s : RunState) (sid : Nat),
    s.task.subscribers = [⟨sid, false⟩] →
    (toks.foldl pushChunk s).delivered
        = s.delivered ++ (mkChunks s.task.chunks.length toks).map
            (fun ch => (sid, Event.chunk ch.content (ch.index : Int))) ∧
      (toks.foldl pushChunk s).task.subscribers = [⟨sid, false⟩] := by
  induction toks with
  | nil => intro s sid h; exact ⟨by simp [mkChunks], h⟩
  | cons t ts ih =>
      intro s sid h
      have hpd : (pushChunk s t).delivered
          = s.delivered ++ [(sid, Event.chunk t ((s.task.chunks.length : Nat) : Int))] := by
        show s.delivered ++
            (s.task.subscribers.filter (fun c => !c.canceled)).map
              (fun c => (c.id, Event.chunk t ((s.task.chunks.length : Nat) : Int)))
          = _
        rw [h]
        rfl
      have hps : (pushChunk s t).task.subscribers = [⟨sid, false⟩] := by
        show s.task.subscribers.filter (fun c => !c.canceled) = _
        rw [h]
        rfl
      have hlen : (pushChunk s t).task.chunks.length = s.task.chunks.length + 1 := by
        show (s.task.chunks
            ++ [({ content := t, index := s.task.chunks.length } : TaskChunk)]).length = _
        simp
      obtain ⟨ihd, ihs⟩ := ih (pushChunk s t) sid hps
      refine ⟨?_, by rw [List.foldl_cons]; exact ihs⟩
      rw [List.foldl_cons, ihd, hpd, hlen]
      simp [mkChunks]

/-- C4 (amended): in a tools-enabled run whose first engine response requests
one tool and whose second response streams, the "executing tool" notice is
broadcast to the attached subscriber exactly once, before the streamed
fragments, as a transient event with index `-1`; it is never stored in the
task's fragment sequence — the stored chunks are exactly the streamed tokens,
so a later subscriber's replay cannot include the notice. -/
theorem tool_notice_transient (env : Env) (f : Flags)
    (id conv : String) (msgs : List ChatMessage) (sid : Nat)
    (c : String) (tc : ToolCall) (toks : List String) (rest : List EngineResp)
    (htools : hasToolsB f = true)
    (hresps : env.resps = .msg c [tc] :: .ndjson toks :: rest)
    (hdb : env.dbFail = none) :
    (processTask env f (initialRunState id conv msgs [⟨sid, false⟩])).task.chunks
        = mkChunks 0 (toks.filter (fun t => t ≠ "")) ∧
      (processTask env f (initialRunState id conv msgs [⟨sid, false⟩])).delivered
        = (sid, Event.chunk (noticeText tc.name) (-1)) ::
            ((mkChunks 0 (toks.filter (fun t => t ≠ ""))).map
                (fun ch => (sid, Event.chunk ch.content (ch.index : Int)))
              ++ [(sid, Event.done)]) := by
  unfold processTask
  rw [hresps, show (5 : Nat) = Nat.succ 4 from rfl, loopGo.eq_def]
  dsimp only
  have hss1 : (!hasToolsB f || decide ((1 : Nat) > 1)) = false := by
    rw [htools]; rfl
  rw [hss1, if_neg (by simp)]
  simp only [nonStreamMessage]
  dsimp only [List.isEmpty_cons]
  rw [if_neg (by simp : ¬(false = true))]
  split
  · next s3 heq =>
      split at heq
      · next s4 heq4 =>
          have hR := runTools_one_inv heq4
          have hch4 : s4.task.chunks = [] := by
            rw [hR.1]
            rfl
          have hsub4 : s4.task.subscribers = [⟨sid, false⟩] := by
            rw [hR.2.2.2.1]
            rfl
          have hdel4 : s4.delivered = [(sid, Event.chunk (noticeText tc.name) (-1))] := by
            rw [hR.2.2.2.2.1]
            rfl
          rw [show (4 : Nat) = Nat.succ 3 from rfl, loopGo.eq_def] at heq
          dsimp only at heq
          have hss2 : (!hasToolsB f || decide (1 + 1 > 1)) = true := by
            rw [htools]; rfl
          rw [hss2, if_pos rfl] at heq
          cases heq
          have hsub5 : ({ s4 with calls := s4.calls ++ [ExtCall.engine true] }
              : RunState).task.subscribers = [⟨sid, false⟩] := hsub4
          obtain ⟨hfd, hfs⟩ := foldPush_delivered
            (streamTokens (EngineResp.ndjson toks))
            { s4 with calls := s4.calls ++ [ExtCall.engine true] } sid hsub5
          obtain ⟨hfc, -, -, -⟩ := foldPush_fields
            (streamTokens (EngineResp.ndjson toks))
            { s4 with calls := s4.calls ++ [ExtCall.engine true] }
          obtain ⟨c1, -, -, -, -, hok, -⟩ := completeTask_spec env
            { (streamTokens (EngineResp.ndjson toks)).foldl pushChunk
                { s4 with calls := s4.calls ++ [ExtCall.engine true] } with
              task := { ((streamTokens (EngineResp.ndjson toks)).foldl pushChunk
                  { s4 with calls := s4.calls ++ [ExtCall.engine true] }).task with
                fullResponse := ((streamTokens (EngineResp.ndjson toks)).foldl pushChunk
                    { s4 with calls := s4.calls ++ [ExtCall.engine true] }).task.fullResponse
                  ++ (streamTokens (EngineResp.ndjson toks)).foldl
                      (fun a t => a ++ t) "" } }
          obtain ⟨hst', -, -, -, hdel'⟩ := hok (Or.inl hdb)
          constructor
          · rw [c1]
            show ((streamTokens (EngineResp.ndjson toks)).foldl pushChunk
              { s4 with calls := s4.calls ++ [ExtCall.engine true] }).task.chunks = _
            rw [hfc]
            show s4.task.chunks ++ mkChunks s4.task.chunks.length
                (streamTokens (EngineResp.ndjson toks)) = _
            rw [hch4]
            rfl
          · rw [hdel']
            show ((streamTokens (EngineResp.ndjson toks)).foldl pushChunk
                { s4 with calls := s4.calls ++ [ExtCall.engine true] }).delivered
              ++ (((streamTokens (EngineResp.ndjson toks)).foldl pushChunk
                  { s4 with calls := s4.calls ++ [ExtCall.engine true]
                    }).task.subscribers.filter (fun cc => !cc.canceled)).map
                  (fun cc => (cc.id, Event.done)) = _
            rw [hfd, hfs]
            show s4.delivered ++ (mkChunks s4.task.chunks.length
                (streamTokens (EngineResp.ndjson toks))).map
                  (fun ch => (sid, Event.chunk ch.content (ch.index : Int)))
              ++ [(sid, Event.done)] = _
            rw [hdel4, hch4]
            show [(sid, Event.chunk (noticeText tc.name) (-1))]
              ++ (mkChunks 0 (toks.filter (fun t => t ≠ ""))).map
                  (fun ch => (sid, Event.chunk ch.content (ch.index : Int)))
              ++ [(sid, Event.done)] = _
            simp
      · next e heq4 =>
          exact absurd heq4 runTools_ne_error
  · next m s3 heq =>
      split at heq
      · next s4 heq4 =>
          rw [show (4 : Nat) = Nat.succ 3 from rfl, loopGo.eq_def] at heq
          dsimp only at heq
          have hss2 : (!hasToolsB f || decide (1 + 1 > 1)) = true := by
            rw [htools]; rfl
          rw [hss2, if_pos rfl] at heq
          cases heq
      · next e heq4 =>
          exact absurd heq4 runTools_ne_error

/-- C4 witness: search enabled, one `web_search` request, then a one-token
stream, observed by subscriber 0. -/
theorem tool_notice_transient_witness :
    hasToolsB ⟨true, false⟩ = true ∧
      (⟨[.msg "" [⟨"web_search", "q"⟩], .ndjson ["The answer"]],
          ⟨fun _ => .ok "results", fun _ => .timedOut⟩, none⟩ : Env).resps
        = .msg "" [⟨"web_search", "q"⟩] :: .ndjson ["The answer"] :: [] ∧
      (⟨[.msg "" [⟨"web_search", "q"⟩], .ndjson ["The answer"]],
          ⟨fun _ => .ok "results", fun _ => .timedOut⟩, none⟩ : Env).dbFail = none ∧
      ((processTask
          ⟨[.msg "" [⟨"web_search", "q"⟩], .ndjson ["The answer"]],
            ⟨fun _ => .ok "results", fun _ => .timedOut⟩, none⟩
          ⟨true, false⟩
          (initialRunState "t" "c" [] [⟨0, false⟩])).task.chunks
          = mkChunks 0 ((["The answer"] : List String).filter (fun t => t ≠ "")) ∧
        (processTask
          ⟨[.msg "" [⟨"web_search", "q"⟩], .ndjson ["The answer"]],
            ⟨fun _ => .ok "results", fun _ => .timedOut⟩, none⟩
          ⟨true, false⟩
          (initialRunState "t" "c" [] [⟨0, false⟩])).delivered
          = (0, Event.chunk (noticeText (⟨"web_search", "q"⟩ : ToolCall).name) (-1)) ::
              ((mkChunks 0 ((["The answer"] : List String).filter (fun t => t ≠ ""))).map
                  (fun ch => (0, Event.chunk ch.content (ch.index : Int)))
                ++ [(0, Event.done)])) :=
  ⟨rfl, rfl, rfl,
    tool_notice_transient _ ⟨true, false⟩ "t" "c" [] 0 "" ⟨"web_search", "q"⟩
      ["The answer"] [] rfl rfl rfl⟩
